import Mathlib

/-!
Shallow embedding of `src/configurator/src/ConfiguratorCore.cpp` (iTALC
configurator core, namespace `ConfiguratorCore`) and verification of the
specification's claims about it.

Modelling conventions:
* Filesystem paths (QString paths produced by `LocalSystem::Path`) are
  modelled as lists of path components (`Path := List String`).
* The filesystem is an explicit state: an association list from paths to
  file contents (byte lists), an association list of permission bits, and
  two failure-injection sets telling which paths fail on `QFile::remove`
  and on writes (`DsaKey::save`).
* DSA primitives (`PrivateDSAKey(bits)` generation, `PublicDSAKey(pkey)`
  derivation, parsing a public key file) live in `DsaKey.cpp`, which is not
  part of the excerpt; they are abstracted into a `DsaEnv` record of pure
  functions, so every theorem quantifies over all possible behaviours of
  the DSA library.
* Qt calls that only produce output (log streams, `printf`, `QMessageBox`,
  `QTextStream(stdout)`) are modelled as explicit event traces returned by
  the embedded functions.
-/

namespace ConfiguratorCore

/-- The `ItalcCore::UserRole` enumeration (declared in `ItalcCore.h`,
outside the excerpt): the authorization tiers keys are stored for. -/
inductive UserRole where
  | roleNone
  | roleTeacher
  | roleAdmin
  | roleSupporter
  | roleOther
deriving DecidableEq, Repr

/-- Filesystem paths, as lists of components. -/
abbrev Path : Type := List String

/-- File contents, as byte lists. -/
abbrev Bytes : Type := List Nat

/-- Association-list lookup of a file's contents by path. -/
def lookupFile : List (Path × Bytes) → Path → Option Bytes
  | [], _ => none
  | e :: rest, p => if e.1 = p then some e.2 else lookupFile rest p

/-- Remove every entry for a path from a file association list. -/
def eraseFile : List (Path × Bytes) → Path → List (Path × Bytes)
  | [], _ => []
  | e :: rest, p => if e.1 = p then eraseFile rest p else e :: eraseFile rest p

/-- Remove every entry for a path from a permission association list. -/
def erasePerm : List (Path × Nat) → Path → List (Path × Nat)
  | [], _ => []
  | e :: rest, p => if e.1 = p then erasePerm rest p else e :: erasePerm rest p

/-- The explicit filesystem state: stored files, permission bits, and the
sets of paths on which removal (`QFile::remove`) and writing
(`DsaKey::save`) fail. -/
structure FS where
  files : List (Path × Bytes)
  perms : List (Path × Nat)
  failRemove : List Path
  failWrite : List Path
deriving DecidableEq

/-- Read a file's contents. -/
def FS.read (fs : FS) (p : Path) : Option Bytes :=
  lookupFile fs.files p

/-- The `QFile::exists` test. -/
def FS.fileExists (fs : FS) (p : Path) : Bool :=
  (fs.read p).isSome

/-- The `QFile::setPermissions` call: replaces the permission bits of a
path (the call's Bool result is ignored by the source). -/
def FS.setPermissions (fs : FS) (p : Path) (bits : Nat) : FS :=
  { fs with perms := (p, bits) :: erasePerm fs.perms p }

/-- The `QFile::remove` call: fails (filesystem unchanged) on paths in
`failRemove`, otherwise deletes the file. Returns the Bool result Qt
returns together with the resulting state. -/
def FS.removeFile (fs : FS) (p : Path) : Bool × FS :=
  if p ∈ fs.failRemove then (false, fs)
  else (true, { fs with files := eraseFile fs.files p })

/-- A `DsaKey::save(path)` call: fails (filesystem unchanged) on paths in
`failWrite`, otherwise stores the bytes at the path. -/
def FS.writeFile (fs : FS) (p : Path) (b : Bytes) : Bool × FS :=
  if p ∈ fs.failWrite then (false, fs)
  else (true, { fs with files := (p, b) :: eraseFile fs.files p })

/-- The behaviour of the DSA library (`DsaKey.cpp`, not in the excerpt),
abstracted as pure functions:
* `gen bits` is `PrivateDSAKey(bits)`: `none` when generation fails
  (`isValid()` false), otherwise the private key bytes;
* `derivePub` is `PublicDSAKey(pkey)` serialization: the public key bytes
  derived from a valid private key;
* `parsePub` parses a public key file's raw contents: `none` when the file
  is not a well-formed DSA public key, otherwise the canonical bytes of
  the parsed key (the bytes `DsaKey::save` writes back). -/
structure DsaEnv where
  gen : Nat → Option Bytes
  derivePub : Bytes → Bytes
  parsePub : Bytes → Option Bytes

/-- An in-memory `PublicDSAKey`: `keyBytes` is `none` iff the key is
invalid. -/
structure PublicDSAKey where
  keyBytes : Option Bytes
deriving DecidableEq

/-- The `DsaKey::isValid` test. -/
def PublicDSAKey.isValid (k : PublicDSAKey) : Bool :=
  k.keyBytes.isSome

/-- Modelled from the spec: the `PublicDSAKey(path)` file constructor
(`loadPublic`) lives in `DsaKey.cpp`, which is not under `src/`. Per the
spec it parses the file and, on a corrupted, truncated or non-key file
(or a missing one), returns an instance whose `isValid()` is false rather
than throwing; it is total by construction here. -/
def PublicDSAKey.load (env : DsaEnv) (fs : FS) (p : Path) : PublicDSAKey :=
  { keyBytes := (fs.read p).bind env.parsePub }

/-- The per-role key file name component (`LocalSystem::Path`, outside the
excerpt). -/
def roleName : UserRole → String
  | .roleNone => "none"
  | .roleTeacher => "teacher"
  | .roleAdmin => "admin"
  | .roleSupporter => "supporter"
  | .roleOther => "other"

/-- The system-wide default key base directory, used when no destination
directory override is given. -/
def systemKeyBase : Path := ["etc", "italc", "keys"]

/-- Modelled from the spec: `LocalSystem::Path::privateKeyPath(role, dir)`
is not under `src/`. Per the spec, path resolution is a deterministic pure
function of the role and the scope (system-wide default or destination
directory override): the private-key file under the scope's base
directory. -/
def privateKeyPath (role : UserRole) (destDir : Path) : Path :=
  (if destDir = [] then systemKeyBase else destDir) ++ ["private", roleName role, "key"]

/-- Modelled from the spec: `LocalSystem::Path::publicKeyPath(role, dir)`
is not under `src/`. Per the spec, path resolution is a deterministic pure
function of the role and the scope: the public-key file under the scope's
base directory. -/
def publicKeyPath (role : UserRole) (destDir : Path) : Path :=
  (if destDir = [] then systemKeyBase else destDir) ++ ["public", roleName role, "key"]

/-- The permission bits `QFile::WriteOwner`. -/
def writeOwnerBits : Nat := 0x2000

/-- Embedding of `ConfiguratorCore::importPublicKey(role, pubKey, destDir)`:
load and validate the source file; on failure return false with no state
change. Otherwise resolve the destination path; if a file exists there,
set its permissions to `WriteOwner` and remove it, returning false if the
removal fails; finally save the parsed key at the destination, returning
the save's result. -/
def importPublicKey (env : DsaEnv) (role : UserRole) (pubKey : Path)
    (destDir : Path) (fs : FS) : Bool × FS :=
  match (PublicDSAKey.load env fs pubKey).keyBytes with
  | none => (false, fs)
  | some kb =>
    let pub := publicKeyPath role destDir
    if fs.fileExists pub then
      let fs1 := fs.setPermissions pub writeOwnerBits
      let rem := fs1.removeFile pub
      if rem.1 then rem.2.writeFile pub kb
      else (false, rem.2)
    else
      fs.writeFile pub kb

/-- The observable actions of `createKeyPair`, in order. -/
inductive KeyPairAction where
  | generate (bits : Nat)
  | savePriv (p : Path)
  | savePub (p : Path)
  | logFail (what : String)
  | printSuccess (priv pub : Path)
deriving DecidableEq

/-- Embedding of `ConfiguratorCore::createKeyPair(role, destDir)`: resolve
both key paths, generate a `PrivateDSAKey(1024)`, bail out with false if
generation is invalid, save the private key (bail out on failure), save
the derived public key (bail out on failure), print the success message
and return true. The third component is the trace of observable actions. -/
def createKeyPair (env : DsaEnv) (role : UserRole) (destDir : Path)
    (fs : FS) : Bool × FS × List KeyPairAction :=
  let priv := privateKeyPath role destDir
  let pub := publicKeyPath role destDir
  match env.gen 1024 with
  | none => (false, fs, [.generate 1024, .logFail "key generation"])
  | some pkey =>
    let w1 := fs.writeFile priv pkey
    if w1.1 then
      let w2 := w1.2.writeFile pub (env.derivePub pkey)
      if w2.1 then
        (true, w2.2, [.generate 1024, .savePriv priv, .savePub pub, .printSuccess priv pub])
      else
        (false, w2.2, [.generate 1024, .savePriv priv, .savePub pub, .logFail "saving public key"])
    else
      (false, w1.2, [.generate 1024, .savePriv priv, .logFail "saving private key"])

/-- Log levels used by the message functions (`Logger::LogLevelInfo`,
`Logger::LogLevelCritical`). -/
inductive LogLevel where
  | info
  | critical
deriving DecidableEq

/-- The observable effects of the message-reporting functions. -/
inductive MsgEvent where
  | log (level : LogLevel) (title msg : String)
  | dialog (level : LogLevel) (title msg : String)
deriving DecidableEq

/-- Embedding of `ConfiguratorCore::informationMessage(title, msg)`:
always writes the title and message to the log; additionally shows a
`QMessageBox::information` dialog only when a GUI `QApplication` instance
exists and the global `silent` flag is off. `hasGuiApp` models
`qobject_cast<QApplication*>(QCoreApplication::instance()) != NULL`. -/
def informationMessage (hasGuiApp silent : Bool) (title msg : String) :
    List MsgEvent :=
  [.log .info title msg] ++
    (if hasGuiApp && !silent then [.dialog .info title msg] else [])

/-- Embedding of `ConfiguratorCore::criticalMessage(title, msg)`: always
writes to the log; shows a `QMessageBox::critical` dialog only when a GUI
application instance exists and `silent` is off. -/
def criticalMessage (hasGuiApp silent : Bool) (title msg : String) :
    List MsgEvent :=
  [.log .critical title msg] ++
    (if hasGuiApp && !silent then [.dialog .critical title msg] else [])

mutual
/-- Configuration values stored in an `ItalcConfiguration::DataMap`
(`QMap<QString, QVariant>`): a string, a nested map, or a QVariant of any
other type. -/
inductive ConfigValue where
  | str : String → ConfigValue
  | map : DataMap → ConfigValue
  | other : ConfigValue
deriving DecidableEq
inductive DataMap where
  | nil : DataMap
  | cons : String → ConfigValue → DataMap → DataMap
deriving DecidableEq
end

/-- One line of observable output of `listConfiguration`: a printed
`stdout` line, or the `qWarning` about an unknown value type. -/
inductive OutLine where
  | line (s : String)
  | warn
deriving DecidableEq

mutual
/-- Embedding of the recursive static
`ConfiguratorCore::listConfiguration(map, parentKey)` helper together with
the `QVariant::type()` dispatch on each entry's value: a map value is
recursed into under the extended parent key, a string value prints one
`key=value` line, and any other value type emits the warning. The
`DataMap` lists entries in `QMap` iteration order. -/
def listConfigurationMap : DataMap → String → List OutLine
  | .nil, _ => []
  | .cons k v rest, parentKey =>
    let curParentKey := if parentKey = "" then k else parentKey ++ "/" ++ k
    listConfigurationVal v curParentKey ++ listConfigurationMap rest parentKey
def listConfigurationVal : ConfigValue → String → List OutLine
  | .map m, cur => listConfigurationMap m cur
  | .str s, cur => [.line (cur ++ "=" ++ s)]
  | .other, _ => [.warn]
end

/-- Embedding of the public `ConfiguratorCore::listConfiguration(config)`
entry point: lists the configuration's data map starting from the empty
parent key. -/
def listConfiguration (data : DataMap) : List OutLine :=
  listConfigurationMap data ""

/-- The success/failure results of the three
`SystemConfigurationModifier` calls made by `applyConfiguration`. -/
structure SysModifier where
  autostartOk : Bool
  argumentsOk : Bool
  firewallOk : Bool

/-- The observable effects of `applyConfiguration`: a
`configApplyError` report (a `criticalMessage` call) with its title and
message, or the final `LocalStore::flush` of the merged configuration. -/
inductive ApplyEvent where
  | report (title msg : String)
  | flushCfg (cfg : DataMap)

/-- The title used by `configApplyError`:
`tr("%1 Configurator").arg(ItalcCore::applicationName())`. -/
def configuratorTitle (appName : String) : String :=
  appName ++ " Configurator"

/-- The autostart failure message, with `%1` substituted. -/
def autostartErrorMsg (appName : String) : String :=
  "Could not modify the autostart property for the " ++ appName ++ " Service."

/-- The service-arguments failure message, with `%1` substituted. -/
def argumentsErrorMsg (appName : String) : String :=
  "Could not modify the service arguments for the " ++ appName ++ " Service."

/-- The firewall failure message, with `%1` substituted. -/
def firewallErrorMsg (appName : String) : String :=
  "Could not change the firewall configuration for the " ++ appName ++ " Service."

/-- Embedding of `ConfiguratorCore::applyConfiguration(c)` (non-Win32
build: the `ITALC_BUILD_WIN32` LogonACL block is compiled out): merge the
given configuration into the global one (the merge operator
`Configuration::Object::operator+=` is outside the excerpt and abstracted
as the `merge` parameter), report each failing system-configuration
modification once via `configApplyError` and continue, flush the merged
configuration to the system `LocalStore`, and return true. Result:
(return value, new global configuration, event trace in order). -/
def applyConfiguration (merge : DataMap → DataMap → DataMap)
    (sys : SysModifier) (appName : String) (globalCfg c : DataMap) :
    Bool × DataMap × List ApplyEvent :=
  let merged := merge globalCfg c
  let e1 : List ApplyEvent :=
    if sys.autostartOk then []
    else [.report (configuratorTitle appName) (autostartErrorMsg appName)]
  let e2 : List ApplyEvent :=
    if sys.argumentsOk then []
    else [.report (configuratorTitle appName) (argumentsErrorMsg appName)]
  let e3 : List ApplyEvent :=
    if sys.firewallOk then []
    else [.report (configuratorTitle appName) (firewallErrorMsg appName)]
  (true, merged, e1 ++ e2 ++ e3 ++ [.flushCfg merged])

/-- Spec-side: the slash-joined rendering of a sequence of keys ("path is
the slash-joined sequence of keys from the root to the leaf"). -/
def slashJoin : List String → String
  | [] => ""
  | [k] => k
  | k :: rest => k ++ "/" ++ slashJoin rest

mutual
/-- Spec-side formulation of the listing: walk the map keeping the
explicit sequence of keys from the root; a string leaf prints one
`slashJoin keys ++ "=" ++ value` line, a map entry is recursed into, and
any other entry produces the warning. To be compared with
`listConfigurationMap`. -/
def specListMap : DataMap → List String → List OutLine
  | .nil, _ => []
  | .cons k v rest, keys => specListVal v (keys ++ [k]) ++ specListMap rest keys
/-- Spec-side dispatch on one entry's value; see `specListMap`. -/
def specListVal : ConfigValue → List String → List OutLine
  | .map m, keys => specListMap m keys
  | .str s, keys => [.line (slashJoin keys ++ "=" ++ s)]
  | .other, _ => [.warn]
end

mutual
/-- All keys of a data map (recursively) are non-empty strings. -/
def keysNonEmptyMap : DataMap → Bool
  | .nil => true
  | .cons k v rest =>
    (if k = "" then false else true) && keysNonEmptyVal v && keysNonEmptyMap rest
/-- All keys inside a configuration value are non-empty strings. -/
def keysNonEmptyVal : ConfigValue → Bool
  | .map m => keysNonEmptyMap m
  | .str _ => true
  | .other => true
end

/-- Count the `configApplyError` reports with a given message text in an
`applyConfiguration` event trace. -/
def countReport : List ApplyEvent → String → Nat
  | [], _ => 0
  | .report _ m :: rest, m0 => (if m = m0 then 1 else 0) + countReport rest m0
  | .flushCfg _ :: rest, m0 => countReport rest m0

/-- Count the `LocalStore::flush` calls in an `applyConfiguration` event
trace. -/
def countFlush : List ApplyEvent → Nat
  | [] => 0
  | .flushCfg _ :: rest => 1 + countFlush rest
  | .report _ _ :: rest => countFlush rest

/-- A DSA environment where every file parses as a key with its own bytes,
generation succeeds with bytes `[7]`, and public derivation prepends a
byte: used for concrete evaluations. -/
def envId : DsaEnv :=
  { gen := fun _ => some [7]
    derivePub := fun b => 0 :: b
    parsePub := fun b => some b }

/-- A DSA environment where nothing parses and generation fails: used for
concrete evaluations of the failure paths. -/
def envBad : DsaEnv :=
  { gen := fun _ => none
    derivePub := fun b => b
    parsePub := fun _ => none }

/-- A concrete filesystem holding a source key file and an existing
destination key for the Supporter role under destination directory
`["d"]`, with no injected failures. -/
def fsPlain : FS :=
  { files := [(["srckey"], [1, 2]), (publicKeyPath .roleSupporter ["d"], [9])]
    perms := []
    failRemove := []
    failWrite := [] }

/-- Like `fsPlain` but removal of the existing destination key fails. -/
def fsRemFail : FS :=
  { fsPlain with failRemove := [publicKeyPath .roleSupporter ["d"]] }

/-- Like `fsPlain` but writing the destination key fails. -/
def fsWriteFail : FS :=
  { fsPlain with failWrite := [publicKeyPath .roleSupporter ["d"]] }

/-- A small concrete configuration map with non-empty keys. -/
def mapSample : DataMap :=
  .cons "a" (.map (.cons "b" (.str "v") (.cons "c" .other .nil)))
    (.cons "d" (.str "w") .nil)

/-- A concrete configuration map whose root key is the empty string. -/
def mapEmptyKey : DataMap :=
  .cons "" (.map (.cons "x" (.str "v") .nil)) .nil

theorem lookupFile_erase_self (l : List (Path × Bytes)) (p : Path) :
    lookupFile (eraseFile l p) p = none := by
  induction l with
  | nil => rfl
  | cons e rest ih =>
    by_cases he : e.1 = p
    · simp [eraseFile, he, ih]
    · simp [eraseFile, he, lookupFile, ih]

theorem lookupFile_erase_ne (l : List (Path × Bytes)) (p q : Path) (h : q ≠ p) :
    lookupFile (eraseFile l p) q = lookupFile l q := by
  induction l with
  | nil => rfl
  | cons e rest ih =>
    by_cases he : e.1 = p
    · have hpq : ¬p = q := fun hq => h hq.symm
      simp [eraseFile, he, lookupFile, hpq, ih]
    · simp [eraseFile, he, lookupFile, ih]

theorem FS.read_setPermissions (fs : FS) (p : Path) (bits : Nat) (q : Path) :
    (fs.setPermissions p bits).read q = fs.read q := rfl

theorem FS.read_writeFile_self (fs : FS) (p : Path) (b : Bytes)
    (h : p ∉ fs.failWrite) : ((fs.writeFile p b).2).read p = some b := by
  simp [FS.writeFile, h, FS.read, lookupFile]

theorem FS.read_writeFile_ne (fs : FS) (p : Path) (b : Bytes) (q : Path)
    (h : q ≠ p) : ((fs.writeFile p b).2).read q = fs.read q := by
  by_cases hw : p ∈ fs.failWrite
  · simp [FS.writeFile, hw]
  · have : ¬(p = q) := fun hq => h hq.symm
    simp [FS.writeFile, hw, FS.read, lookupFile, this, lookupFile_erase_ne _ _ _ h]

theorem FS.read_removeFile_ne (fs : FS) (p q : Path) (h : q ≠ p) :
    ((fs.removeFile p).2).read q = fs.read q := by
  by_cases hr : p ∈ fs.failRemove
  · simp [FS.removeFile, hr]
  · simp [FS.removeFile, hr, FS.read, lookupFile_erase_ne _ _ _ h]

theorem privateKeyPath_ne_publicKeyPath (role : UserRole) (destDir : Path) :
    privateKeyPath role destDir ≠ publicKeyPath role destDir := by
  unfold privateKeyPath publicKeyPath
  intro h
  have h2 := List.append_cancel_left h
  have h3 : ("private" : String) = "public" := by injection h2
  exact absurd h3 (by decide)

/-- C1: for every role, scope and source path, when the source file does
not load as a valid DSA public key, `importPublicKey` returns failure with
the filesystem completely unchanged — in particular any pre-existing
destination public key for that (role, scope) is left byte-for-byte
untouched. -/
theorem importPublicKey_invalid_source_no_mutation
    (env : DsaEnv) (role : UserRole) (pubKey destDir : Path) (fs : FS)
    (h : (PublicDSAKey.load env fs pubKey).isValid = false) :
    importPublicKey env role pubKey destDir fs = (false, fs) := by
  have hb : (PublicDSAKey.load env fs pubKey).keyBytes = none := by
    cases hk : (PublicDSAKey.load env fs pubKey).keyBytes with
    | none => rfl
    | some b => simp [PublicDSAKey.isValid, hk] at h
  simp [importPublicKey, hb]

/-- Witness for C1 at a concrete input: an unparsable source file over a
filesystem holding an existing Supporter destination key. -/
theorem importPublicKey_invalid_source_no_mutation_witness :
    (PublicDSAKey.load envBad fsPlain ["srckey"]).isValid = false ∧
    importPublicKey envBad .roleSupporter ["srckey"] ["d"] fsPlain
      = (false, fsPlain) :=
  ⟨by decide,
   importPublicKey_invalid_source_no_mutation envBad .roleSupporter
     ["srckey"] ["d"] fsPlain (by decide)⟩

/-- C5 counterexample: at this concrete input the existing destination key
is not removable, and `importPublicKey` does return failure without
writing the new key — but no removability check precedes the removal
attempt: the function has already mutated the filesystem (it forces the
destination's permission bits to `WriteOwner`) before the removal fails,
so the failure path is not mutation-free as a verify-then-remove design
requires. -/
theorem importPublicKey_no_permission_check_cex :
    (importPublicKey envId .roleSupporter ["srckey"] ["d"] fsRemFail).1 = false ∧
    (importPublicKey envId .roleSupporter ["srckey"] ["d"] fsRemFail).2.perms
      ≠ fsRemFail.perms := by decide

/-- C5 (amended): when a valid source key is imported over an existing
destination file, `importPublicKey` performs no removability check: it
unconditionally sets the destination's permissions to `WriteOwner`
(ignoring that call's result) and then attempts the removal; if the
removal fails it returns failure, the new key bytes are not written and
the destination's contents are unchanged, but the permission mutation has
already happened. -/
theorem importPublicKey_remove_failure
    (env : DsaEnv) (role : UserRole) (pubKey destDir : Path) (fs : FS)
    (kb : Bytes)
    (hvalid : (PublicDSAKey.load env fs pubKey).keyBytes = some kb)
    (hex : fs.fileExists (publicKeyPath role destDir) = true)
    (hrem : publicKeyPath role destDir ∈ fs.failRemove) :
    importPublicKey env role pubKey destDir fs
      = (false, fs.setPermissions (publicKeyPath role destDir) writeOwnerBits) ∧
    (importPublicKey env role pubKey destDir fs).2.read
        (publicKeyPath role destDir)
      = fs.read (publicKeyPath role destDir) := by
  have hmain : importPublicKey env role pubKey destDir fs
      = (false, fs.setPermissions (publicKeyPath role destDir) writeOwnerBits) := by
    simp [importPublicKey, hvalid, hex, FS.removeFile, FS.setPermissions, hrem]
  exact ⟨hmain, by rw [hmain]; rfl⟩

/-- Witness for the amended C5 at a concrete input: removal of the
existing Supporter key fails. -/
theorem importPublicKey_remove_failure_witness :
    ((PublicDSAKey.load envId fsRemFail ["srckey"]).keyBytes = some [1, 2] ∧
     fsRemFail.fileExists (publicKeyPath .roleSupporter ["d"]) = true ∧
     publicKeyPath .roleSupporter ["d"] ∈ fsRemFail.failRemove) ∧
    (importPublicKey envId .roleSupporter ["srckey"] ["d"] fsRemFail
      = (false, fsRemFail.setPermissions (publicKeyPath .roleSupporter ["d"])
          writeOwnerBits) ∧
     (importPublicKey envId .roleSupporter ["srckey"] ["d"] fsRemFail).2.read
        (publicKeyPath .roleSupporter ["d"])
      = fsRemFail.read (publicKeyPath .roleSupporter ["d"])) :=
  ⟨⟨by decide, by decide, by decide⟩,
   importPublicKey_remove_failure envId .roleSupporter ["srckey"] ["d"]
     fsRemFail [1, 2] (by decide) (by decide) (by decide)⟩

/-- C2 counterexample: at this concrete input a valid Supporter key exists
at the destination and a valid source key is imported, the removal of the
old key succeeds but the subsequent write of the new key fails;
`importPublicKey` returns failure and the role is left with no key at
all — the delete-then-write replacement is not atomic with respect to
failure. -/
theorem importPublicKey_not_atomic_cex :
    fsWriteFail.read (publicKeyPath .roleSupporter ["d"]) = some [9] ∧
    (importPublicKey envId .roleSupporter ["srckey"] ["d"] fsWriteFail).1
      = false ∧
    (importPublicKey envId .roleSupporter ["srckey"] ["d"] fsWriteFail).2.read
        (publicKeyPath .roleSupporter ["d"])
      = none := by decide

/-- C2 (amended): key replacement is atomic only up to the removal step.
If `importPublicKey` fails during validation, the filesystem is untouched;
if it fails during removal of the existing key, the previous key's bytes
are still stored; but if the write of the new key fails after the existing
key was removed, the role is left with no key at the destination. -/
theorem importPublicKey_failure_modes
    (env : DsaEnv) (role : UserRole) (pubKey destDir : Path) (fs : FS) :
    ((PublicDSAKey.load env fs pubKey).keyBytes = none →
      importPublicKey env role pubKey destDir fs = (false, fs)) ∧
    ((PublicDSAKey.load env fs pubKey).isValid = true →
      publicKeyPath role destDir ∈ fs.failRemove →
      fs.fileExists (publicKeyPath role destDir) = true →
      (importPublicKey env role pubKey destDir fs).1 = false ∧
      (importPublicKey env role pubKey destDir fs).2.read
          (publicKeyPath role destDir)
        = fs.read (publicKeyPath role destDir)) ∧
    ((PublicDSAKey.load env fs pubKey).isValid = true →
      publicKeyPath role destDir ∉ fs.failRemove →
      publicKeyPath role destDir ∈ fs.failWrite →
      fs.fileExists (publicKeyPath role destDir) = true →
      (importPublicKey env role pubKey destDir fs).1 = false ∧
      (importPublicKey env role pubKey destDir fs).2.read
          (publicKeyPath role destDir)
        = none) := by
  refine ⟨fun hb => by simp [importPublicKey, hb], fun hv hrem hex => ?_, fun hv hrem hw hex => ?_⟩
  · obtain ⟨kb, hb⟩ := Option.isSome_iff_exists.mp (by simpa [PublicDSAKey.isValid] using hv)
    have := importPublicKey_remove_failure env role pubKey destDir fs kb hb hex hrem
    exact ⟨by rw [this.1], this.2⟩
  · obtain ⟨kb, hb⟩ := Option.isSome_iff_exists.mp (by simpa [PublicDSAKey.isValid] using hv)
    constructor
    · simp [importPublicKey, hb, hex, FS.removeFile, FS.setPermissions, hrem,
        FS.writeFile, hw]
    · simp [importPublicKey, hb, hex, FS.removeFile, FS.setPermissions, hrem,
        FS.writeFile, hw, FS.read, lookupFile_erase_self]

/-- Witness for the amended C2 at a concrete input: the write of the new
key fails after the old Supporter key was removed, leaving no key. -/
theorem importPublicKey_failure_modes_witness :
    ((PublicDSAKey.load envId fsWriteFail ["srckey"]).isValid = true ∧
     publicKeyPath .roleSupporter ["d"] ∉ fsWriteFail.failRemove ∧
     publicKeyPath .roleSupporter ["d"] ∈ fsWriteFail.failWrite ∧
     fsWriteFail.fileExists (publicKeyPath .roleSupporter ["d"]) = true) ∧
    ((importPublicKey envId .roleSupporter ["srckey"] ["d"] fsWriteFail).1
       = false ∧
     (importPublicKey envId .roleSupporter ["srckey"] ["d"] fsWriteFail).2.read
        (publicKeyPath .roleSupporter ["d"]) = none) :=
  ⟨⟨by decide, by decide, by decide, by decide⟩,
   (importPublicKey_failure_modes envId .roleSupporter ["srckey"] ["d"]
       fsWriteFail).2.2 (by decide) (by decide) (by decide) (by decide)⟩

/-- C3: for every role, scope and source, whenever `importPublicKey`
returns success, the file stored at the resolved public-key path for that
(role, scope) holds exactly the imported key's bytes (the canonical bytes
of the key parsed from the source file); any previously installed key at
that path has been overwritten, so a read of the (role, scope) key now
yields only the new bytes. -/
theorem importPublicKey_success_stores_key
    (env : DsaEnv) (role : UserRole) (pubKey destDir : Path) (fs : FS)
    (h : (importPublicKey env role pubKey destDir fs).1 = true) :
    (importPublicKey env role pubKey destDir fs).2.read
        (publicKeyPath role destDir)
      = (fs.read pubKey).bind env.parsePub := by
  cases hk : (PublicDSAKey.load env fs pubKey).keyBytes with
  | none => simp [importPublicKey, hk] at h
  | some kb =>
    have hsrc : (fs.read pubKey).bind env.parsePub = some kb := by
      simpa [PublicDSAKey.load] using hk
    rw [hsrc]
    by_cases hex : fs.fileExists (publicKeyPath role destDir) = true
    · by_cases hrem : publicKeyPath role destDir ∈ fs.failRemove
      · simp [importPublicKey, hk, hex, FS.removeFile, FS.setPermissions, hrem] at h
      · by_cases hw : publicKeyPath role destDir ∈ fs.failWrite
        · simp [importPublicKey, hk, hex, FS.removeFile, FS.setPermissions,
            hrem, FS.writeFile, hw] at h
        · simp [importPublicKey, hk, hex, FS.removeFile, FS.setPermissions,
            hrem, FS.writeFile, hw, FS.read, lookupFile]
    · by_cases hw : publicKeyPath role destDir ∈ fs.failWrite
      · simp [importPublicKey, hk, hex, FS.writeFile, hw] at h
      · simp [importPublicKey, hk, hex, FS.writeFile, hw, FS.read, lookupFile]

/-- Witness for C3 at a concrete input: a successful import over an
existing different Supporter key; the stored bytes equal the parsed source
bytes. -/
theorem importPublicKey_success_stores_key_witness :
    (importPublicKey envId .roleSupporter ["srckey"] ["d"] fsPlain).1 = true ∧
    (importPublicKey envId .roleSupporter ["srckey"] ["d"] fsPlain).2.read
        (publicKeyPath .roleSupporter ["d"])
      = (fsPlain.read ["srckey"]).bind envId.parsePub :=
  ⟨by decide,
   importPublicKey_success_stores_key envId .roleSupporter ["srckey"] ["d"]
     fsPlain (by decide)⟩

/-- C4: `createKeyPair` generates a fresh DSA private key of the default
strength 1024 bits and, step by step: if generation fails it returns false
with the filesystem untouched and without attempting any save; if saving
the private key at the resolved private-key path fails it returns false
without attempting the public-key save; if saving the derived public key
at the resolved public-key path fails it returns false without printing
the success message (the private key having been written); and when every
step succeeds it returns true with both keys stored at their resolved
paths. -/
theorem createKeyPair_cases
    (env : DsaEnv) (role : UserRole) (destDir : Path) (fs : FS) :
    (env.gen 1024 = none →
      createKeyPair env role destDir fs
        = (false, fs, [.generate 1024, .logFail "key generation"])) ∧
    (∀ k, env.gen 1024 = some k →
      privateKeyPath role destDir ∈ fs.failWrite →
      createKeyPair env role destDir fs
        = (false, fs, [.generate 1024, .savePriv (privateKeyPath role destDir),
            .logFail "saving private key"])) ∧
    (∀ k, env.gen 1024 = some k →
      privateKeyPath role destDir ∉ fs.failWrite →
      publicKeyPath role destDir ∈ fs.failWrite →
      (createKeyPair env role destDir fs).1 = false ∧
      (createKeyPair env role destDir fs).2.1.read (privateKeyPath role destDir)
        = some k ∧
      (createKeyPair env role destDir fs).2.1.read (publicKeyPath role destDir)
        = fs.read (publicKeyPath role destDir) ∧
      (createKeyPair env role destDir fs).2.2
        = [.generate 1024, .savePriv (privateKeyPath role destDir),
           .savePub (publicKeyPath role destDir), .logFail "saving public key"]) ∧
    (∀ k, env.gen 1024 = some k →
      privateKeyPath role destDir ∉ fs.failWrite →
      publicKeyPath role destDir ∉ fs.failWrite →
      (createKeyPair env role destDir fs).1 = true ∧
      (createKeyPair env role destDir fs).2.1.read (privateKeyPath role destDir)
        = some k ∧
      (createKeyPair env role destDir fs).2.1.read (publicKeyPath role destDir)
        = some (env.derivePub k) ∧
      (createKeyPair env role destDir fs).2.2
        = [.generate 1024, .savePriv (privateKeyPath role destDir),
           .savePub (publicKeyPath role destDir),
           .printSuccess (privateKeyPath role destDir) (publicKeyPath role destDir)]) := by
  have hne := privateKeyPath_ne_publicKeyPath role destDir
  refine ⟨fun hg => by simp [createKeyPair, hg],
    fun k hg hw1 => by simp [createKeyPair, hg, FS.writeFile, hw1],
    fun k hg hw1 hw2 => ?_, fun k hg hw1 hw2 => ?_⟩
  · have hfw : publicKeyPath role destDir ∈ ((fs.writeFile (privateKeyPath role destDir) k).2).failWrite := by
      simpa [FS.writeFile, hw1] using hw2
    refine ⟨?_, ?_, ?_, ?_⟩ <;>
      simp [createKeyPair, hg, FS.writeFile, hw1, hw2, FS.read, lookupFile,
        eraseFile, lookupFile_erase_ne _ _ _ hne.symm, hne, hne.symm]
  · refine ⟨?_, ?_, ?_, ?_⟩ <;>
      simp [createKeyPair, hg, FS.writeFile, hw1, hw2, FS.read, lookupFile,
        eraseFile, lookupFile_erase_ne _ _ _ hne.symm, hne, hne.symm]

/-- Witness for C4 at a concrete input: a fully successful key-pair
creation for the Admin role in destination directory `["d2"]`. -/
theorem createKeyPair_cases_witness :
    (envId.gen 1024 = some [7] ∧
     privateKeyPath .roleAdmin ["d2"] ∉ fsPlain.failWrite ∧
     publicKeyPath .roleAdmin ["d2"] ∉ fsPlain.failWrite) ∧
    ((createKeyPair envId .roleAdmin ["d2"] fsPlain).1 = true ∧
     (createKeyPair envId .roleAdmin ["d2"] fsPlain).2.1.read
        (privateKeyPath .roleAdmin ["d2"]) = some [7] ∧
     (createKeyPair envId .roleAdmin ["d2"] fsPlain).2.1.read
        (publicKeyPath .roleAdmin ["d2"]) = some (envId.derivePub [7]) ∧
     (createKeyPair envId .roleAdmin ["d2"] fsPlain).2.2
       = [.generate 1024, .savePriv (privateKeyPath .roleAdmin ["d2"]),
          .savePub (publicKeyPath .roleAdmin ["d2"]),
          .printSuccess (privateKeyPath .roleAdmin ["d2"])
            (publicKeyPath .roleAdmin ["d2"])]) :=
  ⟨⟨by decide, by decide, by decide⟩,
   (createKeyPair_cases envId .roleAdmin ["d2"] fsPlain).2.2.2 [7]
     (by decide) (by decide) (by decide)⟩

/-- C9: key-path resolution is deterministic and pure. Two evaluations of
the resolved private- and public-key paths at the same (role, scope) are
equal, and resolution performs no I/O: for any two filesystem states and
any two DSA environments, `importPublicKey` and `createKeyPair` touch no
path other than the two resolved for their (role, scope) arguments — every
other path reads the same before and after. -/
theorem resolvePath_deterministic_and_pure
    (role : UserRole) (destDir : Path) (env env2 : DsaEnv) (srcKey : Path)
    (fs fs2 : FS) (q : Path)
    (h1 : q ≠ publicKeyPath role destDir)
    (h2 : q ≠ privateKeyPath role destDir) :
    publicKeyPath role destDir = publicKeyPath role destDir ∧
    privateKeyPath role destDir = privateKeyPath role destDir ∧
    (importPublicKey env role srcKey destDir fs).2.read q = fs.read q ∧
    (createKeyPair env2 role destDir fs2).2.1.read q = fs2.read q := by
  refine ⟨rfl, rfl, ?_, ?_⟩
  · cases hk : (PublicDSAKey.load env fs srcKey).keyBytes with
    | none => simp [importPublicKey, hk]
    | some kb =>
      by_cases hex : fs.fileExists (publicKeyPath role destDir) = true
      · by_cases hrem : publicKeyPath role destDir ∈ fs.failRemove
        · simp [importPublicKey, hk, hex, FS.removeFile, FS.setPermissions,
            hrem, FS.read]
        · by_cases hw : publicKeyPath role destDir ∈ fs.failWrite
          · simp [importPublicKey, hk, hex, FS.removeFile, FS.setPermissions,
              hrem, FS.writeFile, hw, FS.read, lookupFile_erase_ne _ _ _ h1]
          · have hq : ¬(publicKeyPath role destDir = q) := fun hqq => h1 hqq.symm
            simp [importPublicKey, hk, hex, FS.removeFile, FS.setPermissions,
              hrem, FS.writeFile, hw, FS.read, lookupFile, hq,
              lookupFile_erase_ne _ _ _ h1]
      · by_cases hw : publicKeyPath role destDir ∈ fs.failWrite
        · simp [importPublicKey, hk, hex, FS.writeFile, hw]
        · have hq : ¬(publicKeyPath role destDir = q) := fun hqq => h1 hqq.symm
          simp [importPublicKey, hk, hex, FS.writeFile, hw, FS.read,
            lookupFile, hq, lookupFile_erase_ne _ _ _ h1]
  · cases hg : env2.gen 1024 with
    | none => simp [createKeyPair, hg]
    | some k =>
      have hqpriv : ¬(privateKeyPath role destDir = q) := fun hqq => h2 hqq.symm
      have hqpub : ¬(publicKeyPath role destDir = q) := fun hqq => h1 hqq.symm
      by_cases hw1 : privateKeyPath role destDir ∈ fs2.failWrite
      · simp [createKeyPair, hg, FS.writeFile, hw1]
      · by_cases hw2 : publicKeyPath role destDir ∈ fs2.failWrite
        · simp [createKeyPair, hg, FS.writeFile, hw1, hw2, FS.read,
            lookupFile, hqpriv, lookupFile_erase_ne _ _ _ h2]
        · simp [createKeyPair, hg, FS.writeFile, hw1, hw2, FS.read,
            lookupFile, hqpriv, hqpub, lookupFile_erase_ne _ _ _ h2,
            lookupFile_erase_ne _ _ _ h1]

/-- Witness for C9 at a concrete input: the source-key path is untouched
by an import and a key-pair creation for the Supporter role. -/
theorem resolvePath_deterministic_and_pure_witness :
    (["srckey"] ≠ publicKeyPath .roleSupporter ["d"] ∧
     ["srckey"] ≠ privateKeyPath .roleSupporter ["d"]) ∧
    (publicKeyPath .roleSupporter ["d"] = publicKeyPath .roleSupporter ["d"] ∧
     privateKeyPath .roleSupporter ["d"] = privateKeyPath .roleSupporter ["d"] ∧
     (importPublicKey envId .roleSupporter ["srckey"] ["d"] fsPlain).2.read
        ["srckey"] = fsPlain.read ["srckey"] ∧
     (createKeyPair envBad .roleSupporter ["d"] fsPlain).2.1.read
        ["srckey"] = fsPlain.read ["srckey"]) :=
  ⟨⟨by decide, by decide⟩,
   resolvePath_deterministic_and_pure .roleSupporter ["d"] envId envBad
     ["srckey"] fsPlain fsPlain ["srckey"] (by decide) (by decide)⟩

theorem string_concat_ne_of_length_ne (s1 s2 a t : String)
    (h : s1.length ≠ s2.length) : s1 ++ a ++ t ≠ s2 ++ a ++ t := by
  intro he
  apply h
  have h2 := congrArg String.length he
  simp only [String.length_append] at h2
  omega

theorem autostartMsg_ne_argumentsMsg (a : String) :
    autostartErrorMsg a ≠ argumentsErrorMsg a := by
  unfold autostartErrorMsg argumentsErrorMsg
  exact string_concat_ne_of_length_ne _ _ a _ (by decide)

theorem autostartMsg_ne_firewallMsg (a : String) :
    autostartErrorMsg a ≠ firewallErrorMsg a := by
  unfold autostartErrorMsg firewallErrorMsg
  exact string_concat_ne_of_length_ne _ _ a _ (by decide)

theorem argumentsMsg_ne_firewallMsg (a : String) :
    argumentsErrorMsg a ≠ firewallErrorMsg a := by
  unfold argumentsErrorMsg firewallErrorMsg
  exact string_concat_ne_of_length_ne _ _ a _ (by decide)

/-- C6: for every input configuration and every combination of outcomes of
the three system-configuration modifications, `applyConfiguration` merges
the input into the global configuration, reports each failing modification
exactly once via the message surface (zero times when it succeeds) while
continuing with the remaining steps, flushes the merged configuration to
the local store exactly once as the final action, and returns true. -/
theorem applyConfiguration_reports_once_flushes_returns_true
    (merge : DataMap → DataMap → DataMap) (sys : SysModifier)
    (appName : String) (globalCfg c : DataMap) :
    (applyConfiguration merge sys appName globalCfg c).1 = true ∧
    (applyConfiguration merge sys appName globalCfg c).2.1
      = merge globalCfg c ∧
    countReport (applyConfiguration merge sys appName globalCfg c).2.2
        (autostartErrorMsg appName)
      = (if sys.autostartOk then 0 else 1) ∧
    countReport (applyConfiguration merge sys appName globalCfg c).2.2
        (argumentsErrorMsg appName)
      = (if sys.argumentsOk then 0 else 1) ∧
    countReport (applyConfiguration merge sys appName globalCfg c).2.2
        (firewallErrorMsg appName)
      = (if sys.firewallOk then 0 else 1) ∧
    countFlush (applyConfiguration merge sys appName globalCfg c).2.2 = 1 ∧
    (applyConfiguration merge sys appName globalCfg c).2.2.getLast?
      = some (.flushCfg (merge globalCfg c)) := by
  have h12 := autostartMsg_ne_argumentsMsg appName
  have h13 := autostartMsg_ne_firewallMsg appName
  have h23 := argumentsMsg_ne_firewallMsg appName
  obtain ⟨a, b, f⟩ := sys
  cases a <;> cases b <;> cases f <;>
    simp [applyConfiguration, countReport, countFlush, List.getLast?_concat,
      h12, h12.symm, h13, h13.symm, h23, h23.symm]

/-- C7: the message functions always write the title and message to the
log, and display a dialog only when an interactive application instance
exists and silent mode is off; so in silent mode, or with no interactive
application instance, both degrade to log-only with no dialog. -/
theorem messages_log_only_when_silent
    (hasGuiApp silent : Bool) (title msg : String) :
    ((silent = true ∨ hasGuiApp = false) →
      informationMessage hasGuiApp silent title msg
        = [.log .info title msg] ∧
      criticalMessage hasGuiApp silent title msg
        = [.log .critical title msg]) ∧
    MsgEvent.log .info title msg ∈ informationMessage hasGuiApp silent title msg ∧
    MsgEvent.log .critical title msg ∈ criticalMessage hasGuiApp silent title msg := by
  cases silent <;> cases hasGuiApp <;>
    simp [informationMessage, criticalMessage]

/-- Witness for C7 at a concrete input: silent mode with a GUI instance
present gives log-only output. -/
theorem messages_log_only_when_silent_witness :
    (true = true ∨ true = false) ∧
    (informationMessage true true "t" "m" = [.log .info "t" "m"] ∧
     criticalMessage true true "t" "m" = [.log .critical "t" "m"]) :=
  ⟨Or.inl rfl,
   (messages_log_only_when_silent true true "t" "m").1 (Or.inl rfl)⟩

/-- C8: loading a public key from a file is total by construction and
never escapes with an exception: it always yields a `PublicDSAKey`
instance, whose `isValid()` is true exactly when the file exists and its
contents parse as a well-formed DSA public key, and false exactly when the
file is missing or its contents (corrupted, truncated or non-key) fail to
parse. -/
theorem loadPublic_total_validity (env : DsaEnv) (fs : FS) (p : Path) :
    ((PublicDSAKey.load env fs p).isValid = true ↔
      ∃ b k, fs.read p = some b ∧ env.parsePub b = some k) ∧
    ((PublicDSAKey.load env fs p).isValid = false ↔
      fs.read p = none ∨ ∃ b, fs.read p = some b ∧ env.parsePub b = none) := by
  cases hr : fs.read p with
  | none => simp [PublicDSAKey.load, PublicDSAKey.isValid, hr]
  | some b =>
    cases hp : env.parsePub b with
    | none => simp [PublicDSAKey.load, PublicDSAKey.isValid, hr, hp]
    | some k => simp [PublicDSAKey.load, PublicDSAKey.isValid, hr, hp]

theorem string_append_ne_empty_right (a b : String) (h : b ≠ "") :
    a ++ b ≠ "" := by
  intro he
  apply h
  have hd := congrArg String.data he
  rw [String.data_append] at hd
  have hnil : String.data "" = [] := rfl
  rw [hnil] at hd
  exact String.ext (List.append_eq_nil.mp hd).2

theorem slashJoin_append_singleton :
    ∀ (keys : List String) (k : String), keys ≠ [] →
      slashJoin (keys ++ [k]) = slashJoin keys ++ "/" ++ k
  | [], _, h => absurd rfl h
  | [x], k, _ => by simp [slashJoin]
  | x :: y :: t, k, _ => by
    have ih := slashJoin_append_singleton (y :: t) k (by simp)
    show slashJoin (x :: ((y :: t) ++ [k])) = slashJoin (x :: y :: t) ++ "/" ++ k
    simp only [List.cons_append] at ih ⊢
    rw [show slashJoin (x :: y :: (t ++ [k])) = x ++ "/" ++ slashJoin (y :: (t ++ [k])) from rfl]
    rw [show slashJoin (x :: y :: t) = x ++ "/" ++ slashJoin (y :: t) from rfl]
    rw [ih]
    simp [String.append_assoc]

mutual
/-- The program listing agrees with the spec-side slash-joined listing,
provided the accumulated parent key renders the key sequence walked so far
and is empty exactly on the empty sequence; all keys must be non-empty for
the invariant to propagate. -/
theorem listConfigurationMap_spec :
    ∀ (m : DataMap) (keys : List String) (parentKey : String),
      keysNonEmptyMap m = true → parentKey = slashJoin keys →
      (parentKey = "" ↔ keys = []) →
      listConfigurationMap m parentKey = specListMap m keys
  | .nil, _, _, _, _, _ => rfl
  | .cons k v rest, keys, parentKey, h, hpk, hiff => by
    have h' : (if k = "" then false else true) = true ∧
        keysNonEmptyVal v = true ∧ keysNonEmptyMap rest = true := by
      simpa [keysNonEmptyMap, Bool.and_assoc] using h
    obtain ⟨hk0, hv, hr⟩ := h'
    have hkne : k ≠ "" := by
      intro hke
      rw [hke] at hk0
      simp at hk0
    have hrest := listConfigurationMap_spec rest keys parentKey hr hpk hiff
    by_cases hpe : parentKey = ""
    · have hkeys : keys = [] := hiff.mp hpe
      subst hkeys
      subst hpe
      have hval := listConfigurationVal_spec v [k] k hv rfl
        ⟨fun hh => absurd hh hkne, fun hh => by simp at hh⟩
      simp [listConfigurationMap, specListMap, hval, hrest]
    · have hkeys : keys ≠ [] := fun hke => hpe (hiff.mpr hke)
      have hcur : parentKey ++ "/" ++ k = slashJoin (keys ++ [k]) := by
        rw [hpk, slashJoin_append_singleton keys k hkeys]
      have hcne : parentKey ++ "/" ++ k ≠ "" :=
        string_append_ne_empty_right (parentKey ++ "/") k hkne
      have hval := listConfigurationVal_spec v (keys ++ [k])
        (parentKey ++ "/" ++ k) hv hcur
        ⟨fun hh => absurd hh hcne, fun hh => by simp at hh⟩
      simp [listConfigurationMap, specListMap, hpe, hval, hrest]
/-- Dispatch companion of `listConfigurationMap_spec` for a single
configuration value. -/
theorem listConfigurationVal_spec :
    ∀ (v : ConfigValue) (keys : List String) (cur : String),
      keysNonEmptyVal v = true → cur = slashJoin keys →
      (cur = "" ↔ keys = []) →
      listConfigurationVal v cur = specListVal v keys
  | .str s, _, _, _, hc, _ => by simp [listConfigurationVal, specListVal, hc]
  | .map m, keys, cur, h, hc, hiff =>
    listConfigurationMap_spec m keys cur (by simpa [keysNonEmptyVal] using h)
      hc hiff
  | .other, _, _, _, _, _ => rfl
end

/-- C10 counterexample: on a map whose root key is the empty string the
program collapses the empty accumulated prefix — it prints `x=v` for the
leaf reached through keys `["", "x"]`, whereas the slash-joined path of
that key sequence is `/x`, so the printed path is not the slash-joined
sequence of keys from the root. -/
theorem listConfiguration_empty_key_cex :
    listConfiguration mapEmptyKey = [.line "x=v"] ∧
    specListMap mapEmptyKey [] = [.line "/x=v"] ∧
    listConfiguration mapEmptyKey ≠ specListMap mapEmptyKey [] := by decide

/-- C10 (amended): for every configuration data map all of whose keys are
non-empty, `listConfiguration` prints exactly one `path=value` line per
string-valued leaf with `path` the slash-joined sequence of keys from the
root to the leaf, recurses into map-valued entries, and emits exactly one
warning and no output line for each entry of any other variant type — it
coincides with the spec-side slash-joined listing. -/
theorem listConfiguration_prints_slash_joined_leaves (m : DataMap)
    (h : keysNonEmptyMap m = true) :
    listConfiguration m = specListMap m [] :=
  listConfigurationMap_spec m [] "" h rfl (by simp)

/-- Witness for the amended C10 at a concrete input: a nested map with a
string leaf, an `other`-typed entry and a second top-level string leaf. -/
theorem listConfiguration_prints_slash_joined_leaves_witness :
    keysNonEmptyMap mapSample = true ∧
    listConfiguration mapSample = specListMap mapSample [] :=
  ⟨by decide, listConfiguration_prints_slash_joined_leaves mapSample (by decide)⟩

end ConfiguratorCore
